import Mathlib

/-!
# ToolView: edge-sampled mouse state and the one-shot left-click dispatcher

A shallow embedding of `ToolMouseInfo` and `ToolView` from `src/main.cpp`.

* `uint32_t` button masks are natural numbers; only bitwise tests are applied to them.
* `int` cursor coordinates are integers.
* A `float` is the rational number it denotes (finite values only). The conversion
  `static_cast<float>(int)` and the float addition of `HandleMouse` round as IEEE 754
  binary32 does, to nearest with ties to even (`roundToFloat`). `ScrolledPosition` is
  read in exact arithmetic, the scope of the statement made about it.
* `const char *` is `Option String` (`none` is `nullptr`).
* `std::function<void(ImVec2)>` is the data type `Callback`: the empty function, a
  caller-supplied callable named by a number, or the closure that
  `AssignLeftClickMode` builds around its argument. What a caller-supplied callable does
  is looked up in a `UserCode` table: it may change every member of the `ToolView`
  (it can capture a reference to it) and the caller's own data `U`.
* The statements of the closure of `AssignLeftClickMode` are executed in source order,
  whatever `InCallback` has done to `LeftClickCallback` in the meantime.
* Calling an empty `std::function` throws `std::bad_function_call`; calls therefore
  return `Except CallError _`.
* The device (`SDL_GetMouseState`, `SDL_GetRelativeMouseState`) is an input: every
  `Update` receives the values the two SDL calls produce in that tick.
* `Program.trace` is a ghost log: one entry per call of a caller-supplied callable,
  with the argument it received. No source statement reads it.
-/

namespace ToolSpec

/-! ## SDL constants (SDL_mouse.h: `SDL_BUTTON(X) = 1 << (X-1)`, left 1, middle 2, right 3) -/

def SDL_BUTTON_LMASK : Nat := 1
def SDL_BUTTON_MMASK : Nat := 2
def SDL_BUTTON_RMASK : Nat := 4

/-! ## Data model -/

/-- The pair of floats of Dear ImGui; a component is the rational a finite float denotes. -/
structure ImVec2 where
  x : ℚ
  y : ℚ
deriving DecidableEq

/-- What `SDL_GetMouseState(&X, &Y)` yields: the returned button mask and the two
integers written through the pointers. -/
structure MouseSample where
  buttons : Nat
  x : Int
  y : Int
deriving DecidableEq

/-- Everything the device supplies during one `ToolMouseInfo::Update`. -/
structure TickInput where
  mouse : MouseSample
  relX : Int
  relY : Int
deriving DecidableEq

/-- Class `ToolMouseInfo` (main.cpp:24-56). -/
structure ToolMouseInfo where
  LastState : Nat := 0
  State : Nat := 0
  X : Int := 0
  Y : Int := 0
  DX : Int := 0
  DY : Int := 0
deriving DecidableEq

/-- Values of type `std::function<void(ImVec2)>`. -/
inductive Callback where
  /-- the empty function (`nullptr`) -/
  | null : Callback
  /-- a callable written by the caller, identified by a number -/
  | user (id : Nat) : Callback
  /-- the lambda of main.cpp:73-77, capturing `InCallback` by copy and `this` -/
  | oneShot (InCallback : Callback) : Callback
deriving DecidableEq

/-- Class `ToolView` (main.cpp:58-124), data members. -/
structure ToolView where
  MouseInfo : ToolMouseInfo := {}
  WindowSize : ImVec2 := ⟨1280, 720⟩
  WindowScroll : ImVec2 := ⟨0, 0⟩
  CameraPosition : ImVec2 := ⟨0, 0⟩
  StatusText : Option String := none
  LeftClickCallback : Callback := Callback.null
deriving DecidableEq

/-- The body of every caller-supplied callable: given the point it is called with, it
transforms the tool view and the caller's data. -/
abbrev UserCode (U : Type) := Nat → ImVec2 → ToolView × U → ToolView × U

/-- The exception a call can raise. -/
inductive CallError where
  | bad_function_call : CallError
deriving DecidableEq

/-- The running program: the tool view, the caller's data, and the ghost log of calls
of caller-supplied callables. -/
structure Program (U : Type) where
  toolView : ToolView
  user : U
  trace : List (Nat × ImVec2) := []

/-! ## 32-bit float arithmetic -/

/-- Nearest integer, a tie going to the even neighbour. -/
def roundHalfEven (q : ℚ) : Int :=
  if q - ⌊q⌋ < 1 / 2 then ⌊q⌋
  else if 1 / 2 < q - ⌊q⌋ then ⌊q⌋ + 1
  else if ⌊q⌋ % 2 = 0 then ⌊q⌋ else ⌊q⌋ + 1

/-- Binary exponent of the last place of a binary32 number of the magnitude of `q`:
24 significant bits, and never below the subnormal spacing `2 ^ (-149)`. -/
def ulpExponent (q : ℚ) : Int :=
  max (Int.log 2 |q| - 23) (-149)

/-- Rounding to `float` (IEEE 754 binary32, round to nearest, ties to even): `q` is
rounded to a multiple of its last place. Infinities and NaN are not represented; the
sum of a finite float and a converted 32-bit `int` does not overflow, the `int` being
far below half the last place of the largest float. -/
def roundToFloat (q : ℚ) : ℚ :=
  (roundHalfEven (q / 2 ^ ulpExponent q) : ℚ) * 2 ^ ulpExponent q

/-- `static_cast<float>(n)` for an `int` `n`. -/
def floatOfInt (n : Int) : ℚ :=
  roundToFloat (n : ℚ)

/-- `a + b` on two `float`s. -/
def floatAdd (a b : ℚ) : ℚ :=
  roundToFloat (a + b)

/-! ## ToolMouseInfo -/

/-- `LastState = State = SDL_GetMouseState(&X, &Y)` (main.cpp:31). -/
def ToolMouseInfo.Initialize (m : ToolMouseInfo) (s : MouseSample) : ToolMouseInfo :=
  { m with LastState := s.buttons, State := s.buttons, X := s.x, Y := s.y }

/-- `ToolMouseInfo::Update` (main.cpp:33-37). -/
def ToolMouseInfo.Update (m : ToolMouseInfo) (i : TickInput) : ToolMouseInfo :=
  { LastState := m.State
    State := i.mouse.buttons
    X := i.mouse.x
    Y := i.mouse.y
    DX := i.relX
    DY := i.relY }

/-- `(SDL_BUTTON_LMASK & State) && !(SDL_BUTTON_LMASK & LastState)` (main.cpp:39-41). -/
def ToolMouseInfo.LeftUp (m : ToolMouseInfo) : Bool :=
  (SDL_BUTTON_LMASK &&& m.State != 0) && !(SDL_BUTTON_LMASK &&& m.LastState != 0)

/-- `(SDL_BUTTON_MMASK & State) && !(SDL_BUTTON_MMASK & LastState)` (main.cpp:43-45). -/
def ToolMouseInfo.MiddleUp (m : ToolMouseInfo) : Bool :=
  (SDL_BUTTON_MMASK &&& m.State != 0) && !(SDL_BUTTON_MMASK &&& m.LastState != 0)

/-- `(SDL_BUTTON_RMASK & State) && !(SDL_BUTTON_RMASK & LastState)` (main.cpp:47-49). -/
def ToolMouseInfo.RightUp (m : ToolMouseInfo) : Bool :=
  (SDL_BUTTON_RMASK &&& m.State != 0) && !(SDL_BUTTON_RMASK &&& m.LastState != 0)

/-- `SDL_BUTTON_LMASK & State` as a `bool` (main.cpp:51). -/
def ToolMouseInfo.LeftDown (m : ToolMouseInfo) : Bool :=
  SDL_BUTTON_LMASK &&& m.State != 0

/-- `SDL_BUTTON_MMASK & State` as a `bool` (main.cpp:53). -/
def ToolMouseInfo.MiddleDown (m : ToolMouseInfo) : Bool :=
  SDL_BUTTON_MMASK &&& m.State != 0

/-- `SDL_BUTTON_RMASK & State` as a `bool` (main.cpp:55). -/
def ToolMouseInfo.RightDown (m : ToolMouseInfo) : Bool :=
  SDL_BUTTON_RMASK &&& m.State != 0

/-! ## ToolView -/

/-- Calling a `std::function<void(ImVec2)>` with the point `pos`.

* the empty function throws;
* a caller-supplied callable runs its body and is logged;
* the closure of `AssignLeftClickMode` runs `InCallback(pos)`, then
  `StatusText = nullptr`, then `LeftClickCallback = nullptr` (main.cpp:74-76); an
  exception from `InCallback` leaves the two assignments unexecuted. -/
def Callback.invoke {U : Type} (env : UserCode U) :
    Callback → ImVec2 → Program U → Except CallError (Program U)
  | Callback.null, _, _ => Except.error CallError.bad_function_call
  | Callback.user id, pos, p =>
      let r := env id pos (p.toolView, p.user)
      Except.ok { toolView := r.1, user := r.2, trace := p.trace ++ [(id, pos)] }
  | Callback.oneShot InCallback, pos, p =>
      match InCallback.invoke env pos p with
      | Except.error e => Except.error e
      | Except.ok p1 =>
          Except.ok { p1 with
            toolView := { p1.toolView with
              StatusText := none, LeftClickCallback := Callback.null } }

/-- `ToolView::AssignLeftClickMode` (main.cpp:70-78). -/
def ToolView.AssignLeftClickMode (v : ToolView) (InText : Option String)
    (InCallback : Callback) : ToolView :=
  { v with StatusText := InText, LeftClickCallback := Callback.oneShot InCallback }

/-- `ToolView::HandleMouse` (main.cpp:80-84): the point is
`WindowScroll.x + static_cast<float>(MouseInfo.X)` and the same in `y`, in float. -/
def HandleMouse {U : Type} (env : UserCode U) (p : Program U) :
    Except CallError (Program U) :=
  if p.toolView.MouseInfo.LeftUp && (p.toolView.LeftClickCallback != Callback.null) then
    p.toolView.LeftClickCallback.invoke env
      ⟨floatAdd p.toolView.WindowScroll.x (floatOfInt p.toolView.MouseInfo.X),
       floatAdd p.toolView.WindowScroll.y (floatOfInt p.toolView.MouseInfo.Y)⟩ p
  else
    Except.ok p

/-- `MouseInfo.Update()` inside `ToolView::Update` (main.cpp:87). -/
def Program.sample {U : Type} (p : Program U) (i : TickInput) : Program U :=
  { p with toolView := { p.toolView with MouseInfo := p.toolView.MouseInfo.Update i } }

/-- `ToolView::Update` (main.cpp:86-89). -/
def Update {U : Type} (env : UserCode U) (p : Program U) (i : TickInput) :
    Except CallError (Program U) :=
  HandleMouse env (p.sample i)

/-- `ToolView::Initialize` (main.cpp:93-96); `InitializeGraphics` has an empty body. -/
def ToolView.Initialize (v : ToolView) (s : MouseSample) : ToolView :=
  { v with MouseInfo := v.MouseInfo.Initialize s }

/-- The main loop's successive `toolView.Update()` calls (main.cpp:205), one per
element of the input list; an exception ends the run. -/
def runUpdates {U : Type} (env : UserCode U) :
    Program U → List TickInput → Except CallError (Program U)
  | p, [] => Except.ok p
  | p, i :: rest =>
      match Update env p i with
      | Except.error e => Except.error e
      | Except.ok p1 => runUpdates env p1 rest

/-- The mouse state after the `MouseInfo.Update()` calls of a run of ticks. -/
def sampleAll (m : ToolMouseInfo) : List TickInput → ToolMouseInfo
  | [] => m
  | i :: rest => sampleAll (m.Update i) rest

/-- No tick of the run shows `LeftUp()` after its sampling. -/
def noLeftUp (m : ToolMouseInfo) : List TickInput → Bool
  | [] => true
  | i :: rest => !(m.Update i).LeftUp && noLeftUp (m.Update i) rest

/-- The program after the `MouseInfo.Update()` calls of a run of ticks in which no
callback was called: only `MouseInfo` differs. -/
def Program.sampled {U : Type} (p : Program U) (inps : List TickInput) : Program U :=
  { p with toolView := { p.toolView with MouseInfo := sampleAll p.toolView.MouseInfo inps } }

/-- The program with its tool view replaced. -/
def Program.withView {U : Type} (p : Program U) (v : ToolView) : Program U :=
  { p with toolView := v }

/-- The log of a call that returned normally. -/
def traceOf {U : Type} : Except CallError (Program U) → Option (List (Nat × ImVec2))
  | Except.ok p => some p.trace
  | Except.error _ => none

/-- What the dispatcher shows after a call that returned normally. -/
def dispatcherOf {U : Type} : Except CallError (Program U) → Option (Option String × Callback)
  | Except.ok p => some (p.toolView.StatusText, p.toolView.LeftClickCallback)
  | Except.error _ => none

/-! ## Concrete callers and inputs used in the closed statements -/

/-- Callers whose callables change nothing. -/
def inertCode : UserCode Unit := fun _ _ w => w

/-- A caller whose callable 0, when called, assigns the mode `place end` with callable 1;
every other callable changes nothing. -/
def chainCode : UserCode Unit := fun id _ w =>
  if id = 0 then (w.1.AssignLeftClickMode (some "place end") (Callback.user 1), w.2) else w

/-- A program right after construction of the `ToolView`, with scroll offset (10,20). -/
def scrolledProgram : Program Unit :=
  { toolView := { WindowScroll := ⟨10, 20⟩ }, user := () }

/-- A freshly constructed `ToolView` with nothing else. -/
def freshProgram : Program Unit :=
  { toolView := {}, user := () }

/-- Left button pressed, cursor at (150,110). -/
def tickLeftAt150 : TickInput := ⟨⟨1, 150, 110⟩, 0, 0⟩

/-- No button pressed, cursor at (150,110). -/
def tickNoneAt150 : TickInput := ⟨⟨0, 150, 110⟩, 30, 10⟩

/-- Left button pressed, cursor at (100,100). -/
def tickLeftAt100 : TickInput := ⟨⟨1, 100, 100⟩, 0, 0⟩

/-- Left button pressed, cursor at (120,100). -/
def tickLeftAt120 : TickInput := ⟨⟨1, 120, 100⟩, 20, 0⟩

/-- Middle button pressed, cursor at (5,5). -/
def tickMiddle : TickInput := ⟨⟨2, 5, 5⟩, 0, 0⟩

/-- Right button pressed, cursor at (6,5). -/
def tickRight : TickInput := ⟨⟨4, 6, 5⟩, 1, 0⟩

/-! ## Float rounding -/

theorem roundHalfEven_intCast (z : Int) : roundHalfEven (z : ℚ) = z := by
  simp [roundHalfEven]

theorem ulpExponent_intCast_nonpos (n : Int) (h : |n| < 2 ^ 24) :
    ulpExponent (n : ℚ) ≤ 0 := by
  unfold ulpExponent
  by_cases h0 : n = 0
  · subst h0
    simp [Int.log_zero_right]
  · have hpos : (0 : ℚ) < |(n : ℚ)| := abs_pos.mpr (by exact_mod_cast h0)
    have hlt : |(n : ℚ)| < ((2 : ℕ) : ℚ) ^ (24 : ℤ) := by
      have h1 : ((|n| : ℤ) : ℚ) < ((2 ^ 24 : ℤ) : ℚ) := by exact_mod_cast h
      rw [Int.cast_abs] at h1
      calc |(n : ℚ)| < ((2 ^ 24 : ℤ) : ℚ) := h1
        _ = ((2 : ℕ) : ℚ) ^ (24 : ℤ) := by norm_num
    have hlog := (Int.lt_zpow_iff_log_lt (by norm_num : 1 < 2) hpos).1 hlt
    apply max_le
    · omega
    · norm_num

/-- An integer of magnitude below `2 ^ 24` is a `float`: rounding leaves it alone. -/
theorem roundToFloat_intCast (n : Int) (h : |n| < 2 ^ 24) : roundToFloat (n : ℚ) = n := by
  have hk := ulpExponent_intCast_nonpos n h
  unfold roundToFloat
  generalize ulpExponent (n : ℚ) = k at hk
  obtain ⟨j, rfl⟩ : ∃ j : ℕ, k = -(j : ℤ) := ⟨(-k).toNat, by omega⟩
  have h2 : (2 : ℚ) ^ j ≠ 0 := pow_ne_zero _ (by norm_num)
  have hq : (n : ℚ) / 2 ^ (-(j : ℤ)) = ((n * 2 ^ j : ℤ) : ℚ) := by
    rw [zpow_neg, zpow_natCast]
    push_cast
    field_simp
  rw [hq, roundHalfEven_intCast, zpow_neg, zpow_natCast]
  push_cast
  field_simp

theorem floatOfInt_small (n : Int) (h : |n| < 2 ^ 24) : floatOfInt n = n :=
  roundToFloat_intCast n h

/-- With an integral scroll component, and cursor and sum of magnitude below `2 ^ 24`,
the float sum is the exact sum. -/
theorem floatAdd_floatOfInt_small (a n : Int) (hn : |n| < 2 ^ 24)
    (hs : |a + n| < 2 ^ 24) :
    floatAdd (a : ℚ) (floatOfInt n) = ((a + n : Int) : ℚ) := by
  rw [floatOfInt_small n hn]
  unfold floatAdd
  rw [← Int.cast_add]
  exact roundToFloat_intCast (a + n) hs

/-- Past 24 significant bits the sum is rounded: `2 ^ 24 + 1` gives `2 ^ 24`. -/
theorem floatAdd_rounds : floatAdd 16777216 (floatOfInt 1) = 16777216 := by
  rw [floatOfInt_small 1 (by decide)]
  have hlog : Int.log 2 |((16777216 : ℚ) + ((1 : Int) : ℚ))| = 24 := by
    have h1 : |((16777216 : ℚ) + ((1 : Int) : ℚ))| = ((16777217 : ℕ) : ℚ) := by norm_num
    rw [h1, Int.log_natCast]
    have h2 : Nat.log 2 16777217 = 24 :=
      Nat.log_eq_of_pow_le_of_lt_pow (by norm_num) (by norm_num)
    rw [h2]; rfl
  unfold floatAdd roundToFloat ulpExponent
  rw [hlog]
  have hf : ⌊((16777216 : ℚ) + ((1 : Int) : ℚ)) / 2 ^ (max (24 - 23) (-149) : ℤ)⌋
      = 8388608 := by
    rw [Int.floor_eq_iff]
    norm_num
  unfold roundHalfEven
  rw [hf]
  norm_num

/-- The conversion rounds as well: `INT_MAX` becomes `2 ^ 31`. -/
theorem floatOfInt_rounds : floatOfInt 2147483647 = 2147483648 := by
  have hlog : Int.log 2 |((2147483647 : Int) : ℚ)| = 30 := by
    have h1 : |((2147483647 : Int) : ℚ)| = ((2147483647 : ℕ) : ℚ) := by norm_num
    rw [h1, Int.log_natCast]
    have h2 : Nat.log 2 2147483647 = 30 :=
      Nat.log_eq_of_pow_le_of_lt_pow (by norm_num) (by norm_num)
    rw [h2]; rfl
  unfold floatOfInt roundToFloat ulpExponent
  rw [hlog]
  have hf : ⌊((2147483647 : Int) : ℚ) / 2 ^ (max (30 - 23) (-149) : ℤ)⌋ = 16777215 := by
    rw [Int.floor_eq_iff]
    norm_num
  unfold roundHalfEven
  rw [hf]
  norm_num

/-- Scroll (10,20) and cursor (150,110): both sums are exact. -/
theorem point_10_20_150_110 :
    floatAdd 10 (floatOfInt 150) = 160 ∧ floatAdd 20 (floatOfInt 110) = 130 := by
  have hx := floatAdd_floatOfInt_small 10 150 (by decide) (by decide)
  have hy := floatAdd_floatOfInt_small 20 110 (by decide) (by decide)
  norm_num at hx hy
  exact ⟨hx, hy⟩

/-- Scroll (10,20) and cursor (100,100): both sums are exact. -/
theorem point_10_20_100_100 :
    floatAdd 10 (floatOfInt 100) = 110 ∧ floatAdd 20 (floatOfInt 100) = 120 := by
  have hx := floatAdd_floatOfInt_small 10 100 (by decide) (by decide)
  have hy := floatAdd_floatOfInt_small 20 100 (by decide) (by decide)
  norm_num at hx hy
  exact ⟨hx, hy⟩

/-- Scroll 0 and cursor 100: the sum is exact. -/
theorem point_0_100 : floatAdd 0 (floatOfInt 100) = 100 := by
  have hx := floatAdd_floatOfInt_small 0 100 (by decide) (by decide)
  norm_num at hx
  exact hx

/-! ## Bit tests -/

/-- Masking with a single bit is non-zero exactly when that bit is set. -/
theorem two_pow_and_ne_zero (i n : Nat) : (2 ^ i &&& n != 0) = n.testBit i := by
  cases h : n.testBit i with
  | true =>
    have hb : (2 ^ i &&& n).testBit i = true := by
      rw [Nat.testBit_and, Nat.testBit_two_pow_self, h]; rfl
    have hne : 2 ^ i &&& n ≠ 0 := by
      intro h0
      rw [h0, Nat.zero_testBit] at hb
      exact Bool.noConfusion hb
    simpa [bne_iff_ne] using hne
  | false =>
    have h0 : 2 ^ i &&& n = 0 := by
      apply Nat.eq_of_testBit_eq
      intro j
      rw [Nat.testBit_and, Nat.zero_testBit, Nat.testBit_two_pow]
      by_cases hij : i = j
      · subst hij; simp [h]
      · simp [hij]
    simp [h0]

theorem lmask_test (n : Nat) : (SDL_BUTTON_LMASK &&& n != 0) = n.testBit 0 :=
  two_pow_and_ne_zero 0 n

theorem mmask_test (n : Nat) : (SDL_BUTTON_MMASK &&& n != 0) = n.testBit 1 :=
  two_pow_and_ne_zero 1 n

theorem rmask_test (n : Nat) : (SDL_BUTTON_RMASK &&& n != 0) = n.testBit 2 :=
  two_pow_and_ne_zero 2 n

/-- C6. `LeftUp()`, `MiddleUp()` and `RightUp()` are true exactly when the bit of their
button (bit 0, 1, 2 of the SDL mask) is set in `State` and clear in `LastState`; no
other bit of either mask takes part. -/
theorem edge_queries_iff (m : ToolMouseInfo) :
    (m.LeftUp = true ↔ (m.State.testBit 0 = true ∧ m.LastState.testBit 0 = false)) ∧
    (m.MiddleUp = true ↔ (m.State.testBit 1 = true ∧ m.LastState.testBit 1 = false)) ∧
    (m.RightUp = true ↔ (m.State.testBit 2 = true ∧ m.LastState.testBit 2 = false)) := by
  refine ⟨?_, ?_, ?_⟩
  · unfold ToolMouseInfo.LeftUp
    rw [lmask_test, lmask_test]; simp
  · unfold ToolMouseInfo.MiddleUp
    rw [mmask_test, mmask_test]; simp
  · unfold ToolMouseInfo.RightUp
    rw [rmask_test, rmask_test]; simp

/-! ## One tick -/

theorem Update_no_edge {U : Type} (env : UserCode U) (p : Program U) (i : TickInput)
    (h : (p.toolView.MouseInfo.Update i).LeftUp = false) :
    Update env p i = Except.ok (p.sample i) := by
  simp [Update, HandleMouse, Program.sample, h]

theorem Update_idle {U : Type} (env : UserCode U) (p : Program U) (i : TickInput)
    (h : p.toolView.LeftClickCallback = Callback.null) :
    Update env p i = Except.ok (p.sample i) := by
  simp [Update, HandleMouse, Program.sample, h]

/-- A tick that shows `LeftUp()` while the closure around a caller-supplied callable is
stored: the callable runs on the sampled program with the scroll offset added to the
cursor, then the two members are reset. -/
theorem Update_fire {U : Type} (env : UserCode U) (p : Program U) (i : TickInput)
    (id : Nat) (hcb : p.toolView.LeftClickCallback = Callback.oneShot (Callback.user id))
    (h : (p.toolView.MouseInfo.Update i).LeftUp = true) :
    Update env p i = Except.ok
      { toolView :=
          { (env id ⟨floatAdd p.toolView.WindowScroll.x (floatOfInt i.mouse.x),
                     floatAdd p.toolView.WindowScroll.y (floatOfInt i.mouse.y)⟩
              ((p.sample i).toolView, p.user)).1 with
            StatusText := none, LeftClickCallback := Callback.null }
        user :=
          (env id ⟨floatAdd p.toolView.WindowScroll.x (floatOfInt i.mouse.x),
                   floatAdd p.toolView.WindowScroll.y (floatOfInt i.mouse.y)⟩
              ((p.sample i).toolView, p.user)).2
        trace := p.trace ++ [(id, ⟨floatAdd p.toolView.WindowScroll.x (floatOfInt i.mouse.x),
                                   floatAdd p.toolView.WindowScroll.y (floatOfInt i.mouse.y)⟩)] } := by
  have hX : (p.toolView.MouseInfo.Update i).X = i.mouse.x := rfl
  have hY : (p.toolView.MouseInfo.Update i).Y = i.mouse.y := rfl
  simp [Update, HandleMouse, Program.sample, h, hcb, Callback.invoke, hX, hY]

/-- The same tick, naming only what the dispatcher shows afterwards. -/
theorem Update_fire_shape {U : Type} (env : UserCode U) (p : Program U) (i : TickInput)
    (id : Nat) (hcb : p.toolView.LeftClickCallback = Callback.oneShot (Callback.user id))
    (h : (p.toolView.MouseInfo.Update i).LeftUp = true) :
    ∃ q, Update env p i = Except.ok q ∧
      q.trace = p.trace ++ [(id, ⟨floatAdd p.toolView.WindowScroll.x (floatOfInt i.mouse.x),
                                  floatAdd p.toolView.WindowScroll.y (floatOfInt i.mouse.y)⟩)] ∧
      q.toolView.StatusText = none ∧
      q.toolView.LeftClickCallback = Callback.null :=
  ⟨_, Update_fire env p i id hcb h, rfl, rfl, rfl⟩

/-- A sample whose left bit is clear never shows `LeftUp()`. -/
theorem LeftUp_false_of_bit_clear (m : ToolMouseInfo) (i : TickInput)
    (h : i.mouse.buttons.testBit 0 = false) : (m.Update i).LeftUp = false := by
  unfold ToolMouseInfo.LeftUp
  rw [lmask_test, lmask_test]
  simp [ToolMouseInfo.Update, h]

/-- A sample whose left bit equals the previous one never shows `LeftUp()`. -/
theorem LeftUp_false_of_bit_same (m : ToolMouseInfo) (i : TickInput)
    (h : i.mouse.buttons.testBit 0 = m.State.testBit 0) : (m.Update i).LeftUp = false := by
  unfold ToolMouseInfo.LeftUp
  rw [lmask_test, lmask_test]
  simp [ToolMouseInfo.Update, h]

/-- A tick whose sample has the left bit clear (the button is not pressed) calls
nothing, from any state. -/
theorem Update_left_clear_calls_nothing {U : Type} (env : UserCode U) (p : Program U)
    (i : TickInput) (h : i.mouse.buttons.testBit 0 = false) :
    Update env p i = Except.ok (p.sample i) :=
  Update_no_edge env p i (LeftUp_false_of_bit_clear p.toolView.MouseInfo i h)

/-- A tick whose sample repeats the left bit of the previous sample (the button is
kept pressed, or kept released) calls nothing, from any state. -/
theorem Update_left_same_calls_nothing {U : Type} (env : UserCode U) (p : Program U)
    (i : TickInput) (h : i.mouse.buttons.testBit 0 = p.toolView.MouseInfo.State.testBit 0) :
    Update env p i = Except.ok (p.sample i) :=
  Update_no_edge env p i (LeftUp_false_of_bit_same p.toolView.MouseInfo i h)

/-! ## Runs of ticks -/

theorem runUpdates_noLeftUp {U : Type} (env : UserCode U) (inps : List TickInput) :
    ∀ p : Program U, noLeftUp p.toolView.MouseInfo inps = true →
      runUpdates env p inps = Except.ok (p.sampled inps) := by
  induction inps with
  | nil => intro p _; rfl
  | cons i rest ih =>
    intro p h
    simp [noLeftUp] at h
    have h1 := Update_no_edge env p i h.1
    have h2 := ih (p.sample i) h.2
    simp only [runUpdates, h1, h2]
    rfl

theorem runUpdates_idle {U : Type} (env : UserCode U) (inps : List TickInput) :
    ∀ p : Program U, p.toolView.LeftClickCallback = Callback.null →
      runUpdates env p inps = Except.ok (p.sampled inps) := by
  induction inps with
  | nil => intro p _; rfl
  | cons i rest ih =>
    intro p h
    have h1 := Update_idle env p i h
    have h2 := ih (p.sample i) h
    simp only [runUpdates, h1, h2]
    rfl

theorem runUpdates_append {U : Type} (env : UserCode U) (xs ys : List TickInput) :
    ∀ (p q : Program U), runUpdates env p xs = Except.ok q →
      runUpdates env p (xs ++ ys) = runUpdates env q ys := by
  induction xs with
  | nil =>
    intro p q h
    simp only [runUpdates, Except.ok.injEq] at h
    subst h; rfl
  | cons i rest ih =>
    intro p q h
    simp only [runUpdates, List.cons_append] at h ⊢
    cases hu : Update env p i with
    | error e => rw [hu] at h; exact Except.noConfusion h
    | ok p1 =>
      rw [hu] at h
      exact ih p1 q h

/-! ## The dispatcher: firing -/

/-- C1. Armed by `AssignLeftClickMode(label, cb)` with a caller-supplied `cb` that leaves
`StatusText` and `LeftClickCallback` alone, an `Update` whose sample shows `LeftUp()`
calls `cb` exactly once (the log grows by one entry, for `cb`); `cb` returns with the
mode still stored, and `Update` returns with `StatusText` null and `LeftClickCallback`
empty; any further `Update`, whatever its sample, returns normally and calls nothing. -/
theorem fire_once_then_idle {U : Type} (env : UserCode U) (p : Program U)
    (label : Option String) (cb : Nat) (i : TickInput)
    (hcb : ∀ pos w, (env cb pos w).1.StatusText = w.1.StatusText ∧
      (env cb pos w).1.LeftClickCallback = w.1.LeftClickCallback)
    (hedge : (p.toolView.MouseInfo.Update i).LeftUp = true) :
    ∃ p1, Update env (p.withView (p.toolView.AssignLeftClickMode label (Callback.user cb))) i
        = Except.ok p1 ∧
      p1.trace = p.trace ++ [(cb, ⟨floatAdd p.toolView.WindowScroll.x (floatOfInt i.mouse.x),
                                   floatAdd p.toolView.WindowScroll.y (floatOfInt i.mouse.y)⟩)] ∧
      (env cb ⟨floatAdd p.toolView.WindowScroll.x (floatOfInt i.mouse.x),
               floatAdd p.toolView.WindowScroll.y (floatOfInt i.mouse.y)⟩
          (((p.withView (p.toolView.AssignLeftClickMode label (Callback.user cb))).sample
            i).toolView, p.user)).1.StatusText = label ∧
      (env cb ⟨floatAdd p.toolView.WindowScroll.x (floatOfInt i.mouse.x),
               floatAdd p.toolView.WindowScroll.y (floatOfInt i.mouse.y)⟩
          (((p.withView (p.toolView.AssignLeftClickMode label (Callback.user cb))).sample
            i).toolView, p.user)).1.LeftClickCallback
        = Callback.oneShot (Callback.user cb) ∧
      p1.toolView.StatusText = none ∧
      p1.toolView.LeftClickCallback = Callback.null ∧
      ∀ j, ∃ p2, Update env p1 j = Except.ok p2 ∧ p2.trace = p1.trace := by
  refine ⟨_, Update_fire env _ i cb rfl hedge, rfl, ?_, ?_, rfl, rfl, ?_⟩
  · rw [(hcb _ _).1]; rfl
  · rw [(hcb _ _).2]; rfl
  · intro j
    exact ⟨_, Update_idle env _ j rfl, rfl⟩

/-- C1 at a concrete input: scroll offset (10,20), left button pressed at (150,110),
callable 7 changing nothing. -/
theorem fire_once_then_idle_witness :
    (scrolledProgram.toolView.MouseInfo.Update tickLeftAt150).LeftUp = true ∧
    ∃ p1, Update inertCode
        (scrolledProgram.withView
          (scrolledProgram.toolView.AssignLeftClickMode (some "place") (Callback.user 7)))
        tickLeftAt150 = Except.ok p1 ∧
      p1.trace = scrolledProgram.trace ++
        [(7, ⟨floatAdd scrolledProgram.toolView.WindowScroll.x (floatOfInt tickLeftAt150.mouse.x),
              floatAdd scrolledProgram.toolView.WindowScroll.y (floatOfInt tickLeftAt150.mouse.y)⟩)] ∧
      (inertCode 7 ⟨floatAdd scrolledProgram.toolView.WindowScroll.x (floatOfInt tickLeftAt150.mouse.x),
               floatAdd scrolledProgram.toolView.WindowScroll.y (floatOfInt tickLeftAt150.mouse.y)⟩
          (((scrolledProgram.withView (scrolledProgram.toolView.AssignLeftClickMode
              (some "place") (Callback.user 7))).sample
            tickLeftAt150).toolView, scrolledProgram.user)).1.StatusText = some "place" ∧
      (inertCode 7 ⟨floatAdd scrolledProgram.toolView.WindowScroll.x (floatOfInt tickLeftAt150.mouse.x),
               floatAdd scrolledProgram.toolView.WindowScroll.y (floatOfInt tickLeftAt150.mouse.y)⟩
          (((scrolledProgram.withView (scrolledProgram.toolView.AssignLeftClickMode
              (some "place") (Callback.user 7))).sample
            tickLeftAt150).toolView, scrolledProgram.user)).1.LeftClickCallback
        = Callback.oneShot (Callback.user 7) ∧
      p1.toolView.StatusText = none ∧
      p1.toolView.LeftClickCallback = Callback.null ∧
      ∀ j, ∃ p2, Update inertCode p1 j = Except.ok p2 ∧ p2.trace = p1.trace :=
  ⟨by decide,
    fire_once_then_idle inertCode scrolledProgram (some "place") 7 tickLeftAt150
      (fun _ _ => ⟨rfl, rfl⟩) (by decide)⟩

/-- C2, at the input of the scenario: with the cursor at (150,110) and scroll offset
(10,20) the fired callback receives (160,130), which is not (150-10, 110-20). Both
float sums are exact at these values. -/
theorem callback_point_not_subtracted :
    traceOf (Update inertCode
        (scrolledProgram.withView
          (scrolledProgram.toolView.AssignLeftClickMode (some "place") (Callback.user 7)))
        tickLeftAt150)
      = some [(7, ⟨160, 130⟩)] ∧
    (⟨160, 130⟩ : ImVec2) ≠ ⟨150 - 10, 110 - 20⟩ := by
  constructor
  · rw [Update_fire inertCode _ tickLeftAt150 7 rfl (by decide)]
    simp [traceOf, scrolledProgram, Program.withView, tickLeftAt150,
      ToolView.AssignLeftClickMode]
    exact point_10_20_150_110
  · intro h
    have hx := congrArg ImVec2.x h
    norm_num at hx

/-- C2, as the code has it. For every cursor position `(X, Y)` and every scroll offset,
the point passed to the pending caller-supplied callback by the firing `Update` is
`(WindowScroll.x + float(X), WindowScroll.y + float(Y))`, conversion and addition in
32-bit float: the scroll offset is added to the window position, and the result is
rounded as float arithmetic rounds. When the scroll components are integers and the
cursor coordinates and the two sums are below `2 ^ 24` in magnitude, the point is the
exact sum `(WindowScroll.x + X, WindowScroll.y + Y)`. -/
theorem callback_point_is_scroll_plus_cursor {U : Type} (env : UserCode U) (p : Program U)
    (label : Option String) (cb : Nat) (i : TickInput)
    (hedge : (p.toolView.MouseInfo.Update i).LeftUp = true) :
    ∃ p1, Update env (p.withView (p.toolView.AssignLeftClickMode label (Callback.user cb))) i
        = Except.ok p1 ∧
      p1.trace = p.trace ++
        [(cb, ⟨floatAdd p.toolView.WindowScroll.x (floatOfInt i.mouse.x),
               floatAdd p.toolView.WindowScroll.y (floatOfInt i.mouse.y)⟩)] ∧
      ∀ a b : Int, p.toolView.WindowScroll = ⟨(a : ℚ), (b : ℚ)⟩ →
        |i.mouse.x| < 2 ^ 24 → |i.mouse.y| < 2 ^ 24 →
        |a + i.mouse.x| < 2 ^ 24 → |b + i.mouse.y| < 2 ^ 24 →
        p1.trace = p.trace ++
          [(cb, ⟨p.toolView.WindowScroll.x + (i.mouse.x : ℚ),
                 p.toolView.WindowScroll.y + (i.mouse.y : ℚ)⟩)] := by
  refine ⟨_, Update_fire env _ i cb rfl hedge, rfl, ?_⟩
  intro a b hs hx hy hax hby
  have h1 : floatAdd p.toolView.WindowScroll.x (floatOfInt i.mouse.x)
      = p.toolView.WindowScroll.x + (i.mouse.x : ℚ) := by
    rw [hs]
    show floatAdd (a : ℚ) (floatOfInt i.mouse.x) = (a : ℚ) + (i.mouse.x : ℚ)
    rw [floatAdd_floatOfInt_small a i.mouse.x hx hax, Int.cast_add]
  have h2 : floatAdd p.toolView.WindowScroll.y (floatOfInt i.mouse.y)
      = p.toolView.WindowScroll.y + (i.mouse.y : ℚ) := by
    rw [hs]
    show floatAdd (b : ℚ) (floatOfInt i.mouse.y) = (b : ℚ) + (i.mouse.y : ℚ)
    rw [floatAdd_floatOfInt_small b i.mouse.y hy hby, Int.cast_add]
  show p.trace ++ [(cb, (⟨floatAdd p.toolView.WindowScroll.x (floatOfInt i.mouse.x),
      floatAdd p.toolView.WindowScroll.y (floatOfInt i.mouse.y)⟩ : ImVec2))] = _
  rw [h1, h2]

/-- C2 as the code has it, at a concrete input: scroll offset (10,20), left button
pressed at (100,100), null label; the callback receives (110,120). -/
theorem callback_point_is_scroll_plus_cursor_witness :
    (scrolledProgram.toolView.MouseInfo.Update tickLeftAt100).LeftUp = true ∧
    ∃ p1, Update inertCode
        (scrolledProgram.withView
          (scrolledProgram.toolView.AssignLeftClickMode none (Callback.user 3)))
        tickLeftAt100 = Except.ok p1 ∧
      p1.trace = [(3, ⟨110, 120⟩)] := by
  refine ⟨by decide, ?_⟩
  obtain ⟨p1, h1, _, h3⟩ :=
    callback_point_is_scroll_plus_cursor inertCode scrolledProgram none 3 tickLeftAt100
      (by decide)
  refine ⟨p1, h1, ?_⟩
  have h4 := h3 10 20 (by simp [scrolledProgram]) (by decide) (by decide) (by decide)
    (by decide)
  rw [h4]
  simp [scrolledProgram, tickLeftAt100]
  norm_num

/-! ## The dispatcher: waiting -/

/-- C7. When `Initialize()` samples a button mask and the next `Update()` samples the
same mask (cursor and relative motion arbitrary), `LeftUp()`, `MiddleUp()` and
`RightUp()` are all false after that `Update`, whichever buttons are held; and
`ToolView::Update()` of a view initialised this way, armed or not, returns normally
having called nothing. -/
theorem no_edge_on_first_tick (m : ToolMouseInfo) (s : MouseSample) (x y dx dy : Int) :
    ((m.Initialize s).Update ⟨⟨s.buttons, x, y⟩, dx, dy⟩).LeftUp = false ∧
    ((m.Initialize s).Update ⟨⟨s.buttons, x, y⟩, dx, dy⟩).MiddleUp = false ∧
    ((m.Initialize s).Update ⟨⟨s.buttons, x, y⟩, dx, dy⟩).RightUp = false ∧
    ∀ (U : Type) (env : UserCode U) (p : Program U),
      ∃ p1, Update env (p.withView (p.toolView.Initialize s)) ⟨⟨s.buttons, x, y⟩, dx, dy⟩
          = Except.ok p1 ∧
        p1.trace = p.trace ∧
        p1.toolView.StatusText = p.toolView.StatusText ∧
        p1.toolView.LeftClickCallback = p.toolView.LeftClickCallback := by
  have hL : ∀ m0 : ToolMouseInfo,
      ((m0.Initialize s).Update ⟨⟨s.buttons, x, y⟩, dx, dy⟩).LeftUp = false := by
    intro m0
    simp [ToolMouseInfo.LeftUp, ToolMouseInfo.Update, ToolMouseInfo.Initialize]
  refine ⟨hL m, ?_, ?_, ?_⟩
  · simp [ToolMouseInfo.MiddleUp, ToolMouseInfo.Update, ToolMouseInfo.Initialize]
  · simp [ToolMouseInfo.RightUp, ToolMouseInfo.Update, ToolMouseInfo.Initialize]
  · intro U env p
    exact ⟨_, Update_no_edge env _ _ (hL p.toolView.MouseInfo), rfl, rfl, rfl⟩

/-- C9. Over any run of ticks none of which shows `LeftUp()` after sampling (a single
tick included, and ticks showing `MiddleUp()` or `RightUp()` included), from any state,
and over any run of ticks at all when `LeftClickCallback` is empty, every `Update`
returns normally, no callback is called, and only `MouseInfo` changes: `StatusText`,
`LeftClickCallback`, `WindowScroll` and the caller's data are as before. -/
theorem waits_without_left_edge {U : Type} (env : UserCode U) (p : Program U)
    (inps : List TickInput)
    (h : noLeftUp p.toolView.MouseInfo inps = true ∨
      p.toolView.LeftClickCallback = Callback.null) :
    ∃ p1, runUpdates env p inps = Except.ok p1 ∧
      p1.trace = p.trace ∧
      p1.user = p.user ∧
      p1.toolView = { p.toolView with MouseInfo := sampleAll p.toolView.MouseInfo inps } ∧
      p1.toolView.StatusText = p.toolView.StatusText ∧
      p1.toolView.LeftClickCallback = p.toolView.LeftClickCallback ∧
      p1.toolView.WindowScroll = p.toolView.WindowScroll := by
  rcases h with h | h
  · exact ⟨_, runUpdates_noLeftUp env inps p h, rfl, rfl, rfl, rfl, rfl, rfl⟩
  · exact ⟨_, runUpdates_idle env inps p h, rfl, rfl, rfl, rfl, rfl, rfl⟩

/-- C9 at concrete inputs: an armed view over a middle press and a right press, and an
idle view over a left press. -/
theorem waits_without_left_edge_witness :
    ((freshProgram.toolView.MouseInfo.Update tickMiddle).MiddleUp = true ∧
    ((freshProgram.toolView.MouseInfo.Update tickMiddle).Update tickRight).RightUp = true ∧
    noLeftUp freshProgram.toolView.MouseInfo [tickMiddle, tickRight] = true ∧
    ∃ p1, runUpdates inertCode
        (freshProgram.withView
          (freshProgram.toolView.AssignLeftClickMode (some "place") (Callback.user 7)))
        [tickMiddle, tickRight] = Except.ok p1 ∧
      p1.trace = [] ∧
      p1.user = () ∧
      p1.toolView =
        { freshProgram.toolView.AssignLeftClickMode (some "place") (Callback.user 7) with
          MouseInfo := sampleAll freshProgram.toolView.MouseInfo [tickMiddle, tickRight] } ∧
      p1.toolView.StatusText = some "place" ∧
      p1.toolView.LeftClickCallback = Callback.oneShot (Callback.user 7) ∧
      p1.toolView.WindowScroll = ⟨0, 0⟩) ∧
    ((freshProgram.toolView.MouseInfo.Update tickLeftAt100).LeftUp = true ∧
    ∃ p1, runUpdates inertCode freshProgram [tickLeftAt100] = Except.ok p1 ∧
      p1.trace = [] ∧
      p1.user = () ∧
      p1.toolView =
        { freshProgram.toolView with
          MouseInfo := sampleAll freshProgram.toolView.MouseInfo [tickLeftAt100] } ∧
      p1.toolView.StatusText = none ∧
      p1.toolView.LeftClickCallback = Callback.null ∧
      p1.toolView.WindowScroll = ⟨0, 0⟩) :=
  ⟨⟨by decide, by decide, by decide,
      waits_without_left_edge inertCode
        (freshProgram.withView
          (freshProgram.toolView.AssignLeftClickMode (some "place") (Callback.user 7)))
        [tickMiddle, tickRight] (Or.inl (by decide))⟩,
    ⟨by decide,
      waits_without_left_edge inertCode freshProgram [tickLeftAt100] (Or.inr rfl)⟩⟩

/-! ## Scroll translation -/

/-- From a state holding the closure around callable `b`, a run of ticks returns
normally and its log is the old one, or the old one followed by a single call of `b`. -/
theorem runUpdates_armed {U : Type} (env : UserCode U) (b : Nat) (inps : List TickInput) :
    ∀ p : Program U, p.toolView.LeftClickCallback = Callback.oneShot (Callback.user b) →
      ∃ p1, runUpdates env p inps = Except.ok p1 ∧
        (p1.trace = p.trace ∨ ∃ pos, p1.trace = p.trace ++ [(b, pos)]) := by
  induction inps with
  | nil => intro p _; exact ⟨p, rfl, Or.inl rfl⟩
  | cons i rest ih =>
    intro p hp
    cases hedge : (p.toolView.MouseInfo.Update i).LeftUp with
    | false =>
      obtain ⟨p1, h1, h2⟩ := ih (p.sample i) hp
      refine ⟨p1, ?_, h2⟩
      simp only [runUpdates, Update_no_edge env p i hedge]
      exact h1
    | true =>
      obtain ⟨q, hq, htr, _, hnull⟩ := Update_fire_shape env p i b hp hedge
      refine ⟨q.sampled rest, ?_, Or.inr ⟨_, htr⟩⟩
      simp only [runUpdates, hq]
      exact runUpdates_idle env rest q hnull

/-- C5. After `AssignLeftClickMode(labelA, cbA)` the status text is `labelA`; after a
following `AssignLeftClickMode(labelB, cbB)` it is `labelB`. From then on every run of
`Update()` calls returns normally and calls either nothing or `cbB` once, never `cbA`;
and the first tick that shows `LeftUp()` calls `cbB`, and nothing else. -/
theorem last_assign_wins {U : Type} (env : UserCode U) (p : Program U)
    (labelA labelB : Option String) (cbA cbB : Nat) (hAB : cbA ≠ cbB) :
    (p.toolView.AssignLeftClickMode labelA (Callback.user cbA)).StatusText = labelA ∧
    ((p.toolView.AssignLeftClickMode labelA (Callback.user cbA)).AssignLeftClickMode
        labelB (Callback.user cbB)).StatusText = labelB ∧
    (∀ inps, ∃ p1 extra,
      runUpdates env
        (p.withView ((p.toolView.AssignLeftClickMode labelA (Callback.user cbA)).AssignLeftClickMode
          labelB (Callback.user cbB))) inps = Except.ok p1 ∧
      p1.trace = p.trace ++ extra ∧
      (extra = [] ∨ ∃ pos, extra = [(cbB, pos)]) ∧
      ∀ e ∈ extra, e.1 ≠ cbA) ∧
    (∀ pre i, noLeftUp p.toolView.MouseInfo pre = true →
      ((sampleAll p.toolView.MouseInfo pre).Update i).LeftUp = true →
      ∃ p1,
        runUpdates env
          (p.withView ((p.toolView.AssignLeftClickMode labelA (Callback.user cbA)).AssignLeftClickMode
            labelB (Callback.user cbB))) (pre ++ [i]) = Except.ok p1 ∧
        p1.trace = p.trace ++ [(cbB, ⟨floatAdd p.toolView.WindowScroll.x (floatOfInt i.mouse.x),
                                      floatAdd p.toolView.WindowScroll.y (floatOfInt i.mouse.y)⟩)]) := by
  refine ⟨rfl, rfl, ?_, ?_⟩
  · intro inps
    obtain ⟨p1, h1, h2⟩ := runUpdates_armed env cbB inps
      (p.withView ((p.toolView.AssignLeftClickMode labelA (Callback.user cbA)).AssignLeftClickMode
          labelB (Callback.user cbB))) rfl
    rcases h2 with h2 | ⟨pos, h2⟩
    · refine ⟨p1, [], h1, ?_, Or.inl rfl, ?_⟩
      · rw [h2, List.append_nil]; rfl
      · intro e he; cases he
    · refine ⟨p1, [(cbB, pos)], h1, h2, Or.inr ⟨pos, rfl⟩, ?_⟩
      intro e he
      rw [List.mem_singleton] at he
      subst he
      exact fun h => hAB h.symm
  · intro pre i hpre hedge
    have hrun := runUpdates_noLeftUp env pre
      (p.withView ((p.toolView.AssignLeftClickMode labelA (Callback.user cbA)).AssignLeftClickMode
          labelB (Callback.user cbB))) hpre
    rw [runUpdates_append env pre [i] _ _ hrun]
    obtain ⟨q, hq, htr, _, _⟩ := Update_fire_shape env
      ((p.withView ((p.toolView.AssignLeftClickMode labelA (Callback.user cbA)).AssignLeftClickMode
          labelB (Callback.user cbB))).sampled pre) i cbB rfl hedge
    refine ⟨q, ?_, htr⟩
    simp only [runUpdates, hq]

/-- C5 at a concrete input: `place start` with callable 1, then `place end` with
callable 2, on a freshly constructed view. -/
theorem last_assign_wins_witness :
    (1 : Nat) ≠ 2 ∧
    ((freshProgram.toolView.AssignLeftClickMode (some "place start")
        (Callback.user 1)).StatusText = some "place start" ∧
    ((freshProgram.toolView.AssignLeftClickMode (some "place start")
        (Callback.user 1)).AssignLeftClickMode
        (some "place end") (Callback.user 2)).StatusText = some "place end" ∧
    (∀ inps, ∃ p1 extra,
      runUpdates inertCode
        (freshProgram.withView
          ((freshProgram.toolView.AssignLeftClickMode (some "place start")
            (Callback.user 1)).AssignLeftClickMode
          (some "place end") (Callback.user 2))) inps = Except.ok p1 ∧
      p1.trace = freshProgram.trace ++ extra ∧
      (extra = [] ∨ ∃ pos, extra = [(2, pos)]) ∧
      ∀ e ∈ extra, e.1 ≠ 1) ∧
    (∀ pre i, noLeftUp freshProgram.toolView.MouseInfo pre = true →
      ((sampleAll freshProgram.toolView.MouseInfo pre).Update i).LeftUp = true →
      ∃ p1,
        runUpdates inertCode
          (freshProgram.withView
            ((freshProgram.toolView.AssignLeftClickMode (some "place start")
              (Callback.user 1)).AssignLeftClickMode
            (some "place end") (Callback.user 2))) (pre ++ [i]) = Except.ok p1 ∧
        p1.trace = freshProgram.trace ++
          [(2, ⟨floatAdd freshProgram.toolView.WindowScroll.x (floatOfInt i.mouse.x),
                floatAdd freshProgram.toolView.WindowScroll.y (floatOfInt i.mouse.y)⟩)])) :=
  ⟨by decide,
    last_assign_wins inertCode freshProgram (some "place start") (some "place end") 1 2
      (by decide)⟩

/-! ## The dispatcher: an empty callback -/

/-- C8, at a concrete input: on a freshly constructed view,
`AssignLeftClickMode("place", nullptr)` leaves `LeftClickCallback` non-empty, and the
next `Update` that shows `LeftUp()` does make a call, which throws. -/
theorem empty_callback_not_rejected :
    ¬ ((freshProgram.toolView.AssignLeftClickMode (some "place")
          Callback.null).LeftClickCallback = Callback.null) ∧
    Update inertCode
        (freshProgram.withView
          (freshProgram.toolView.AssignLeftClickMode (some "place") Callback.null))
        tickLeftAt150
      = Except.error CallError.bad_function_call := by
  constructor
  · decide
  · simp [Update, HandleMouse, Program.sample, Program.withView, freshProgram, tickLeftAt150,
      ToolView.AssignLeftClickMode, Callback.invoke, ToolMouseInfo.Update,
      ToolMouseInfo.LeftUp, SDL_BUTTON_LMASK]

/-- C8, as the code has it. `AssignLeftClickMode(label, cb)` with an empty `cb` arms the
dispatcher like any other call: `StatusText` becomes `label` and `LeftClickCallback`
becomes non-empty (the closure around the empty `cb`); the next `Update` that shows
`LeftUp()` calls that closure, whose call of the empty `cb` throws
`std::bad_function_call`. -/
theorem empty_callback_arms {U : Type} (env : UserCode U) (p : Program U)
    (label : Option String) (i : TickInput)
    (hedge : (p.toolView.MouseInfo.Update i).LeftUp = true) :
    (p.toolView.AssignLeftClickMode label Callback.null).StatusText = label ∧
    (p.toolView.AssignLeftClickMode label Callback.null).LeftClickCallback
      = Callback.oneShot Callback.null ∧
    (p.toolView.AssignLeftClickMode label Callback.null).LeftClickCallback ≠ Callback.null ∧
    Update env (p.withView (p.toolView.AssignLeftClickMode label Callback.null)) i
      = Except.error CallError.bad_function_call := by
  refine ⟨rfl, rfl, ?_, ?_⟩
  · intro h; exact Callback.noConfusion h
  · have hs : ((p.withView (p.toolView.AssignLeftClickMode label Callback.null)).sample
        i).toolView.MouseInfo.LeftUp = true := hedge
    have hc : ((p.withView (p.toolView.AssignLeftClickMode label Callback.null)).sample
        i).toolView.LeftClickCallback = Callback.oneShot Callback.null := rfl
    simp [Update, HandleMouse, hs, hc, Callback.invoke]

/-- C8 as the code has it, at a concrete input: label `pick`, left button pressed at
(120,100). -/
theorem empty_callback_arms_witness :
    (scrolledProgram.toolView.MouseInfo.Update tickLeftAt120).LeftUp = true ∧
    ((scrolledProgram.toolView.AssignLeftClickMode (some "pick") Callback.null).StatusText
      = some "pick" ∧
    (scrolledProgram.toolView.AssignLeftClickMode (some "pick") Callback.null).LeftClickCallback
      = Callback.oneShot Callback.null ∧
    (scrolledProgram.toolView.AssignLeftClickMode (some "pick") Callback.null).LeftClickCallback
      ≠ Callback.null ∧
    Update inertCode
        (scrolledProgram.withView
          (scrolledProgram.toolView.AssignLeftClickMode (some "pick") Callback.null))
        tickLeftAt120
      = Except.error CallError.bad_function_call) :=
  ⟨by decide,
    empty_callback_arms inertCode scrolledProgram (some "pick") tickLeftAt120 (by decide)⟩

/-! ## Evaluations -/

/-- C3, evaluated. The view is initialised with no button held at (100,100), scroll offset
(10,20), and armed. The left button is then held on ticks 1 and 2 and released on
tick 3. The callback is called on tick 1, with (110,120), and on no later tick: the log
after tick 3 is the log after tick 1. When the button is already held at
initialisation, the three ticks call nothing. -/
theorem hold_then_release_fires_on_press :
    traceOf (runUpdates inertCode
      (scrolledProgram.withView
        ((scrolledProgram.toolView.Initialize ⟨0, 100, 100⟩).AssignLeftClickMode
          (some "place") (Callback.user 7)))
      [tickLeftAt100]) = some [(7, ⟨110, 120⟩)] ∧
    traceOf (runUpdates inertCode
      (scrolledProgram.withView
        ((scrolledProgram.toolView.Initialize ⟨0, 100, 100⟩).AssignLeftClickMode
          (some "place") (Callback.user 7)))
      [tickLeftAt100, tickLeftAt120]) = some [(7, ⟨110, 120⟩)] ∧
    traceOf (runUpdates inertCode
      (scrolledProgram.withView
        ((scrolledProgram.toolView.Initialize ⟨0, 100, 100⟩).AssignLeftClickMode
          (some "place") (Callback.user 7)))
      [tickLeftAt100, tickLeftAt120, tickNoneAt150]) = some [(7, ⟨110, 120⟩)] ∧
    traceOf (runUpdates inertCode
      (scrolledProgram.withView
        ((scrolledProgram.toolView.Initialize ⟨1, 100, 100⟩).AssignLeftClickMode
          (some "place") (Callback.user 7)))
      [tickLeftAt100, tickLeftAt120, tickNoneAt150]) = some [] := by
  refine ⟨?_, ?_, ?_, ?_⟩ <;>
  · simp [traceOf, runUpdates, Update, HandleMouse, Program.sample, Program.withView,
      scrolledProgram, tickLeftAt100, tickLeftAt120, tickNoneAt150, inertCode,
      ToolView.Initialize, ToolMouseInfo.Initialize,
      ToolView.AssignLeftClickMode, Callback.invoke, ToolMouseInfo.Update,
      ToolMouseInfo.LeftUp, SDL_BUTTON_LMASK]
    try exact point_10_20_100_100

/-- C4, evaluated. Mode `place start` is armed with callable 0, whose body assigns mode
`place end` with callable 1. The tick that shows `LeftUp()` calls callable 0, and when
`Update` returns `StatusText` is null and `LeftClickCallback` is empty; a release and a
second press afterwards call nothing, so callable 1 is never called. -/
theorem reassignment_in_callback_is_cleared :
    (chainCode 0 ⟨100, 100⟩ (freshProgram.toolView, ())).1.StatusText = some "place end" ∧
    dispatcherOf (Update chainCode
      (freshProgram.withView
        (freshProgram.toolView.AssignLeftClickMode (some "place start") (Callback.user 0)))
      tickLeftAt100) = some (none, Callback.null) ∧
    traceOf (Update chainCode
      (freshProgram.withView
        (freshProgram.toolView.AssignLeftClickMode (some "place start") (Callback.user 0)))
      tickLeftAt100) = some [(0, ⟨100, 100⟩)] ∧
    ((freshProgram.toolView.MouseInfo.Update tickLeftAt100).Update tickNoneAt150).LeftUp
      = false ∧
    (((freshProgram.toolView.MouseInfo.Update tickLeftAt100).Update tickNoneAt150).Update
      tickLeftAt150).LeftUp = true ∧
    traceOf (runUpdates chainCode
      (freshProgram.withView
        (freshProgram.toolView.AssignLeftClickMode (some "place start") (Callback.user 0)))
      [tickLeftAt100, tickNoneAt150, tickLeftAt150]) = some [(0, ⟨100, 100⟩)] := by
  refine ⟨?_, ?_, ?_, ?_, ?_, ?_⟩
  · simp [chainCode, ToolView.AssignLeftClickMode]
  · simp [dispatcherOf, Update, HandleMouse, Program.sample, Program.withView,
      freshProgram, tickLeftAt100, chainCode,
      ToolView.AssignLeftClickMode, Callback.invoke, ToolMouseInfo.Update,
      ToolMouseInfo.LeftUp, SDL_BUTTON_LMASK]
  · simp [traceOf, Update, HandleMouse, Program.sample, Program.withView,
      freshProgram, tickLeftAt100, chainCode,
      ToolView.AssignLeftClickMode, Callback.invoke, ToolMouseInfo.Update,
      ToolMouseInfo.LeftUp, SDL_BUTTON_LMASK]
    exact point_0_100
  · decide
  · decide
  · simp [traceOf, runUpdates, Update, HandleMouse, Program.sample, Program.withView,
      freshProgram, tickLeftAt100, tickNoneAt150, tickLeftAt150, chainCode,
      ToolView.AssignLeftClickMode, Callback.invoke, ToolMouseInfo.Update,
      ToolMouseInfo.LeftUp, SDL_BUTTON_LMASK]
    exact point_0_100

end ToolSpec
